import Mathlib

/-!
Shallow embedding of `sunboundary.py` (SUNTANS boundary-condition tooling):
the boundary topology resolver, the time-axis builder, the field store and
its source-integration (accumulation) operations, the NetCDF persistence
round trip, and the boundary-marker editor.  Machine floats are modelled as
rationals, numpy arrays as lists (topology vectors) or total functions
(field arrays indexed by time / layer / point).
-/

namespace Suntans

/-- A sorted list of the distinct values of `l` (the embedding of
`numpy.unique`, which flattens, deduplicates and sorts). -/
def uniqueSorted (l : List Int) : List Int :=
  List.insertionSort (fun a b => a ≤ b) l.dedup

theorem mem_uniqueSorted {x : Int} {l : List Int} :
    x ∈ uniqueSorted l ↔ x ∈ l := by
  unfold uniqueSorted
  rw [(List.perm_insertionSort _ _).mem_iff, List.mem_dedup]

theorem nodup_uniqueSorted (l : List Int) : (uniqueSorted l).Nodup :=
  (List.perm_insertionSort _ _).nodup_iff.mpr l.nodup_dedup

theorem sorted_uniqueSorted (l : List Int) :
    List.Sorted (fun a b => a ≤ b) (uniqueSorted l) :=
  List.sorted_insertionSort _ _

theorem length_uniqueSorted (l : List Int) :
    (uniqueSorted l).length = l.dedup.length :=
  (List.perm_insertionSort _ _).length_eq

theorem dedup_length_eq_iff {l : List Int} :
    l.dedup.length = l.length ↔ l.Nodup := by
  constructor
  · intro h
    have he : l.dedup = l := l.dedup_sublist.eq_of_length h
    rw [← he]
    exact l.nodup_dedup
  · intro h
    rw [List.dedup_eq_self.mpr h]

/-- The mesh as exposed by `sunpy.Grid`: `Ne` edges, a per-edge integer
marker `mark`, per-edge adjacent cell pair `grad` (`-1` = no cell), per-edge
segment tag `edge_id`, per-edge endpoint vertex pair `edges`, vertex
coordinates `xp, yp` and cell centroid coordinates `xv, yv`. -/
structure Grid where
  Ne : Nat
  mark : Nat → Int
  grad : Nat → Int × Int
  edge_id : Nat → Int
  edges : Nat → Nat × Nat
  xp : Nat → ℚ
  yp : Nat → ℚ
  xv : Nat → ℚ
  yv : Nat → ℚ

/-- Indices of the marker==2 edges in mesh edge order
(`np.argwhere(self.grd.mark==2)`). -/
def mark2Edges (g : Grid) : List Nat :=
  (List.range g.Ne).filter (fun i => g.mark i = 2)

/-- Indices of the marker==3 edges in mesh edge order
(`np.argwhere(self.grd.mark==3)`). -/
def mark3Edges (g : Grid) : List Nat :=
  (List.range g.Ne).filter (fun i => g.mark i = 3)

/-- The cells contributed by one marker==3 edge in `_loadBoundary`'s loop:
`if c1==-1: append(c2) elif c2==-1: append(c1)` (nothing when neither
adjacency is `-1`; note the first branch appends `c2` even when `c2` is
also `-1`). -/
def edgeCell (g : Grid) (i : Nat) : List Int :=
  if (g.grad i).1 = -1 then [(g.grad i).2]
  else if (g.grad i).2 = -1 then [(g.grad i).1]
  else []

/-- The `cellp` accumulation loop of `_loadBoundary` over a list of
marker==3 edge indices. -/
def collectCells (g : Grid) : List Nat → List Int
  | [] => []
  | i :: rest => edgeCell g i ++ collectCells g rest

/-- Edge midpoint x-coordinate: `np.mean(self.grd.xp[self.grd.edges],axis=1)`. -/
def xeAll (g : Grid) (i : Nat) : ℚ :=
  (g.xp (g.edges i).1 + g.xp (g.edges i).2) / 2

/-- Edge midpoint y-coordinate: `np.mean(self.grd.yp[self.grd.edges],axis=1)`. -/
def yeAll (g : Grid) (i : Nat) : ℚ :=
  (g.yp (g.edges i).1 + g.yp (g.edges i).2) / 2

/-- The attributes produced by `Boundary._loadBoundary`. -/
structure BoundaryTopo where
  edgep : List Nat
  N2 : Nat
  cellp : List Int
  N3 : Nat
  xv : List ℚ
  yv : List ℚ
  xe : List ℚ
  ye : List ℚ
  segp : List Int
  Nseg : Nat
  segedgep : List Int

/-- `Boundary._loadBoundary`: resolve type-2 edge indices, type-3 cell
indices (deduplicated and sorted by `np.unique`), boundary point
coordinates, and the flux-segment ids.  Cell indexing uses `Int.toNat`
(valid cell indices are nonnegative). -/
def loadBoundary (g : Grid) : BoundaryTopo :=
  let edgep := mark2Edges g
  let n2 := edgep.length
  let raw := collectCells g (mark3Edges g)
  let cellp := if 0 < raw.length then uniqueSorted raw else []
  let n3 := cellp.length
  let xv := cellp.map (fun c => g.xv c.toNat)
  let yv := cellp.map (fun c => g.yv c.toNat)
  let xe := if 0 < n2 then edgep.map (xeAll g) else []
  let ye := if 0 < n2 then edgep.map (yeAll g) else []
  if 0 < n2 then
    -- `indseg = np.argwhere(self.grd.edge_id>0)` ranges over ALL edges.
    let segIds := ((List.range g.Ne).filter (fun i => 0 < g.edge_id i)).map g.edge_id
    let segp := uniqueSorted segIds
    let segedgep := edgep.map (fun i => if 0 < g.edge_id i then g.edge_id i else 0)
    ⟨edgep, n2, cellp, n3, xv, yv, xe, ye, segp, segp.length, segedgep⟩
  else
    ⟨edgep, n2, cellp, n3, xv, yv, xe, ye, [], 0, []⟩

/-- The `while t0 <= t2` loop of `Boundary.getTime`, instants as seconds.
The loop body appends `t0` and advances by `D` seconds; a fuel parameter
makes the recursion structural (the caller supplies fuel `t2 + 1 - t1`,
enough for any positive step). -/
def timeLoop (t2 D : Nat) : Nat → Nat → List Nat
  | 0, _ => []
  | fuel + 1, t0 => if t0 ≤ t2 then t0 :: timeLoop t2 D fuel (t0 + D) else []

/-- `Boundary.getTime`: the list of instants from `t1` stepping by `D`
seconds while not exceeding `t2`. -/
def getTime (t1 t2 D : Nat) : List Nat :=
  timeLoop t2 D (t2 + 1 - t1) t1

theorem timeLoop_of_gt {t2 D : Nat} (fuel t0 : Nat) (h : t2 < t0) :
    timeLoop t2 D fuel t0 = [] := by
  cases fuel with
  | zero => rfl
  | succ n => simp [timeLoop, Nat.not_le.mpr h]

theorem timeLoop_eq_range_map {D : Nat} (hD : 0 < D) (t2 : Nat) :
    ∀ fuel t0, t0 ≤ t2 → (t2 - t0) / D + 1 ≤ fuel →
      timeLoop t2 D fuel t0 =
        (List.range ((t2 - t0) / D + 1)).map (fun k => t0 + k * D) := by
  intro fuel
  induction fuel with
  | zero => intro t0 _ hf; exact absurd hf (Nat.not_succ_le_zero _)
  | succ n ih =>
    intro t0 ht hf
    rw [timeLoop, if_pos ht]
    by_cases hstep : t0 + D ≤ t2
    · have hDle : D ≤ t2 - t0 := by omega
      have hdiv : (t2 - t0) / D = (t2 - t0 - D) / D + 1 :=
        Nat.div_eq_sub_div hD hDle
      have hsub : t2 - (t0 + D) = t2 - t0 - D := by omega
      have hf2 : (t2 - (t0 + D)) / D + 1 ≤ n := by
        rw [hsub]
        rw [hdiv] at hf
        omega
      have hrec := ih (t0 + D) hstep hf2
      rw [hrec, hsub, hdiv]
      have hfun : (fun k => t0 + D + k * D) = ((fun k => t0 + k * D) ∘ Nat.succ) := by
        funext k
        simp only [Function.comp_apply, Nat.succ_eq_add_one]
        ring
      rw [hfun]
      conv_rhs => rw [List.range_succ_eq_map, List.map_cons, List.map_map]
      norm_num
    · have hlt : t2 - t0 < D := by omega
      rw [Nat.div_eq_of_lt hlt, timeLoop_of_gt n (t0 + D) (by omega)]
      simp [List.range_succ]

theorem getTime_eq_range_map {t1 t2 D : Nat} (h12 : t1 ≤ t2) (hD : 0 < D) :
    getTime t1 t2 D =
      (List.range ((t2 - t1) / D + 1)).map (fun k => t1 + k * D) := by
  have hfuel : (t2 - t1) / D + 1 ≤ t2 + 1 - t1 := by
    have := Nat.div_le_self (t2 - t1) D
    omega
  exact timeLoop_eq_range_map hD t2 _ t1 h12 hfuel

/-- The `Boundary` instance state: dimension sizes, topology vectors, the
vertical axis, the time axis (instants as seconds since 1990-01-01), and
the field arrays.  Field arrays `[Nt,Nk,Npts]` are total functions of
(time step, layer, point); `[Nt,Npts]` arrays of (time step, point). -/
structure Boundary where
  Nt : Nat
  Nk : Nat
  N2 : Nat
  N3 : Nat
  Nseg : Nat
  time : List Nat
  z : Nat → ℚ
  cellp : List Int
  xv : List ℚ
  yv : List ℚ
  edgep : List Nat
  xe : List ℚ
  ye : List ℚ
  segp : List Int
  segedgep : List Int
  boundary_h : Nat → Nat → ℚ
  boundary_u : Nat → Nat → Nat → ℚ
  boundary_v : Nat → Nat → Nat → ℚ
  boundary_w : Nat → Nat → Nat → ℚ
  boundary_T : Nat → Nat → Nat → ℚ
  boundary_S : Nat → Nat → Nat → ℚ
  boundary_Q : Nat → Nat → ℚ
  uc : Nat → Nat → Nat → ℚ
  vc : Nat → Nat → Nat → ℚ
  wc : Nat → Nat → Nat → ℚ
  T : Nat → Nat → Nat → ℚ
  S : Nat → Nat → Nat → ℚ
  h : Nat → Nat → ℚ

/-- The interpolated regional-model source fields returned by
`roms.interp(setUV=setUV,seth=seth)` in `roms2boundary`. -/
structure RomsInterp where
  h : Nat → Nat → ℚ
  T : Nat → Nat → Nat → ℚ
  S : Nat → Nat → Nat → ℚ
  uc : Nat → Nat → Nat → ℚ
  vc : Nat → Nat → Nat → ℚ

/-- Pointwise sum of two interpolated regional-model source fields. -/
def RomsInterp.add (a c : RomsInterp) : RomsInterp where
  h := fun t j => a.h t j + c.h t j
  T := fun t k j => a.T t k j + c.T t k j
  S := fun t k j => a.S t k j + c.S t k j
  uc := fun t k j => a.uc t k j + c.uc t k j
  vc := fun t k j => a.vc t k j + c.vc t k j

/-- `Boundary.roms2boundary`: `T += T_i; S += S_i; if seth: h += h_i;
if setUV: uc += uc_i; vc += vc_i`. -/
def roms2boundary (b : Boundary) (r : RomsInterp) (setUV seth : Bool) : Boundary :=
  { b with
    T := fun t k j => b.T t k j + r.T t k j
    S := fun t k j => b.S t k j + r.S t k j
    h := if seth then fun t j => b.h t j + r.h t j else b.h
    uc := if setUV then fun t k j => b.uc t k j + r.uc t k j else b.uc
    vc := if setUV then fun t k j => b.vc t k j + r.vc t k j else b.vc }

/-- The interpolated fields produced inside `oceanmodel2bdy` by the
external `Interp4D` classes: 4-D temperature/salinity at the type-3
cells (`temp3`, `salt3`) and type-2 edges (`temp2`, `salt2`), the 3-D
surface height at the type-3 cells (`ssh3`), and 4-D velocity at the
type-2 edges (`u2`, `v2`). -/
structure OceanInterp where
  temp3 : Nat → Nat → Nat → ℚ
  salt3 : Nat → Nat → Nat → ℚ
  ssh3 : Nat → Nat → ℚ
  temp2 : Nat → Nat → Nat → ℚ
  salt2 : Nat → Nat → Nat → ℚ
  u2 : Nat → Nat → Nat → ℚ
  v2 : Nat → Nat → Nat → ℚ

/-- `Boundary.oceanmodel2bdy`: for type-3 cells overwrite `T`/`S`
(`self.T[:] = tempnew`), add surface height to `h` when `seth`, never
touch `uc`/`vc` (that branch is commented out in the source); for type-2
edges overwrite `boundary_T`/`boundary_S` and add velocity to
`boundary_u`/`boundary_v` when `setUV`. -/
def oceanmodel2bdy (b : Boundary) (src : OceanInterp) (setUV seth : Bool) : Boundary :=
  let b3 :=
    if 0 < b.N3 then
      { b with
        T := src.temp3
        S := src.salt3
        h := if seth then fun t j => b.h t j + src.ssh3 t j else b.h }
    else b
  if 0 < b.N2 then
    { b3 with
      boundary_T := src.temp2
      boundary_S := src.salt2
      boundary_u := if setUV then fun t k j => b3.boundary_u t k j + src.u2 t k j
                    else b3.boundary_u
      boundary_v := if setUV then fun t k j => b3.boundary_v t k j + src.v2 t k j
                    else b3.boundary_v }
  else b3

/-- `Boundary.otis2boundary`: the external `read_otps.tide_pred` returns
per-point elevation and barotropic velocities, once for the type-3 cells
(`h3,U3,V3`) and once for the type-2 edges (`h2,U2,V2`).  For type-3
cells: `h += h3` and, when `setUV`, `uc[:,k,:] += U3` and
`vc[:,k,:] += V3` for every layer `k < Nk`.  For type-2 edges:
`boundary_u[:,k,:] += U2` and `boundary_v[:,k,:] += V2` for every layer
`k < Nk`, with no `setUV` gate; `h2` is discarded and `boundary_h` is
never touched. -/
def otis2boundary (b : Boundary) (h3 U3 V3 h2 U2 V2 : Nat → Nat → ℚ)
    (setUV : Bool) : Boundary :=
  let b3 :=
    if 0 < b.N3 then
      { b with
        h := fun t j => b.h t j + h3 t j
        uc := if setUV then
                fun t k j => if k < b.Nk then b.uc t k j + U3 t j else b.uc t k j
              else b.uc
        vc := if setUV then
                fun t k j => if k < b.Nk then b.vc t k j + V3 t j else b.vc t k j
              else b.vc }
    else b
  if 0 < b.N2 then
    { b3 with
      boundary_u := fun t k j =>
        if k < b.Nk then b3.boundary_u t k j + U2 t j else b3.boundary_u t k j
      boundary_v := fun t k j =>
        if k < b.Nk then b3.boundary_v t k j + V2 t j else b3.boundary_v t k j }
  else b3

/-- The values left behind by `Boundary.setDepth`: the mesh adjacency
array after the call (the source mutates `self.grd.grad` in place through
the numpy views `nc1 = self.grd.grad[:,0]` and `nc2 = self.grd.grad[:,1]`),
and the per-cell / per-edge depths when the corresponding boundary class
is nonempty. -/
structure DepthResult where
  grad : Nat → Int × Int
  dv : Option (List ℚ)
  de : Option (List ℚ)

/-- `Boundary.setDepth(dv)`.  `ind1 = nc1==-1; nc1[ind1]=nc2[ind1]` writes
through the view into column 0 of `grad`; `ind2` is then computed from the
untouched column 1 and `nc2[ind2]=nc1[ind2]` writes the (already updated)
column 0 values into column 1.  `de` indexes the depth array with the
updated column 0 at the type-2 edges.  Depth indexing uses `Int.toNat`
(valid cell indices are nonnegative). -/
def setDepth (grad : Nat → Int × Int) (N3 N2 : Nat) (cellp : List Int)
    (edgep : List Nat) (dvIn : Nat → ℚ) : DepthResult :=
  let dvB := if 0 < N3 then some (cellp.map fun c => dvIn c.toNat) else none
  if 0 < N2 then
    let col0 := fun i => if (grad i).1 = -1 then (grad i).2 else (grad i).1
    let col1 := fun i => if (grad i).2 = -1 then col0 i else (grad i).2
    let de := edgep.map fun e => dvIn (col0 e).toNat
    ⟨fun i => (col0 i, col1 i), dvB, some de⟩
  else
    ⟨grad, dvB, none⟩

/-- The type-3 variables of the boundary NetCDF file (created only when
the `Ntype3` dimension exists). -/
structure T3Vars where
  xv : List ℚ
  yv : List ℚ
  cellp : List Int
  uc : Nat → Nat → Nat → ℚ
  vc : Nat → Nat → Nat → ℚ
  wc : Nat → Nat → Nat → ℚ
  T : Nat → Nat → Nat → ℚ
  S : Nat → Nat → Nat → ℚ
  h : Nat → Nat → ℚ
  deriving Inhabited

/-- The type-2 variables of the boundary NetCDF file. -/
structure T2Vars where
  xe : List ℚ
  ye : List ℚ
  edgep : List Nat
  boundary_h : Nat → Nat → ℚ
  boundary_u : Nat → Nat → Nat → ℚ
  boundary_v : Nat → Nat → Nat → ℚ
  boundary_w : Nat → Nat → Nat → ℚ
  boundary_T : Nat → Nat → Nat → ℚ
  boundary_S : Nat → Nat → Nat → ℚ
  deriving Inhabited

/-- The flux-segment variables of the boundary NetCDF file. -/
structure SegVars where
  segedgep : List Int
  segp : List Int
  boundary_Q : Nat → Nat → ℚ
  deriving Inhabited

/-- The boundary NetCDF file contents.  `NtDim` is the final size of the
unlimited time dimension; `ntype2`, `ntype3` and `nseg` are the optional
fixed dimensions, each present only when its cardinality was nonzero at
write time; the three variable groups are present under the same
conditions. -/
structure BdyFile where
  NtDim : Nat
  NkDim : Nat
  ntype2 : Option Nat
  ntype3 : Option Nat
  nseg : Option Nat
  z : Nat → ℚ
  time : List Nat
  t3 : Option T3Vars
  t2 : Option T2Vars
  seg : Option SegVars

/-- `Boundary.write2NC`: dimensions `Ntype2`/`Ntype3`/`Nseg` are created
only when `N2`/`N3`/`Nseg` are positive, and each variable group is
written under the same guard.  The unlimited `Nt` dimension ends up with
as many records as the written time variable has. -/
def write2NC (b : Boundary) : BdyFile where
  NtDim := b.time.length
  NkDim := b.Nk
  ntype2 := if 0 < b.N2 then some b.N2 else none
  ntype3 := if 0 < b.N3 then some b.N3 else none
  nseg := if 0 < b.Nseg then some b.Nseg else none
  z := b.z
  time := b.time
  t3 := if 0 < b.N3 then
          some ⟨b.xv, b.yv, b.cellp, b.uc, b.vc, b.wc, b.T, b.S, b.h⟩
        else none
  t2 := if 0 < b.N2 then
          some ⟨b.xe, b.ye, b.edgep, b.boundary_h, b.boundary_u, b.boundary_v,
                b.boundary_w, b.boundary_T, b.boundary_S⟩
        else none
  seg := if 0 < b.Nseg then some ⟨b.segedgep, b.segp, b.boundary_Q⟩ else none

/-- `Boundary._loadBoundaryNC`: each boundary-class dimension is probed
with `try/except` (absent dimension means cardinality 0), and the
variable group of a class is read only when its cardinality is positive;
otherwise the attributes stay at their defaults. -/
def loadBoundaryNC (f : BdyFile) : Boundary :=
  let n2 := f.ntype2.getD 0
  let n3 := f.ntype3.getD 0
  let ns := f.nseg.getD 0
  let v3 := f.t3.getD default
  let v2 := f.t2.getD default
  let vs := f.seg.getD default
  { Nt := f.NtDim
    Nk := f.NkDim
    N2 := n2
    N3 := n3
    Nseg := ns
    time := f.time
    z := f.z
    cellp := if 0 < n3 then v3.cellp else []
    xv := if 0 < n3 then v3.xv else []
    yv := if 0 < n3 then v3.yv else []
    edgep := if 0 < n2 then v2.edgep else []
    xe := if 0 < n2 then v2.xe else []
    ye := if 0 < n2 then v2.ye else []
    segp := if 0 < ns then vs.segp else []
    segedgep := if 0 < ns then vs.segedgep else []
    boundary_h := if 0 < n2 then v2.boundary_h else fun _ _ => 0
    boundary_u := if 0 < n2 then v2.boundary_u else fun _ _ _ => 0
    boundary_v := if 0 < n2 then v2.boundary_v else fun _ _ _ => 0
    boundary_w := if 0 < n2 then v2.boundary_w else fun _ _ _ => 0
    boundary_T := if 0 < n2 then v2.boundary_T else fun _ _ _ => 0
    boundary_S := if 0 < n2 then v2.boundary_S else fun _ _ _ => 0
    boundary_Q := if 0 < ns then vs.boundary_Q else fun _ _ => 0
    uc := if 0 < n3 then v3.uc else fun _ _ _ => 0
    vc := if 0 < n3 then v3.vc else fun _ _ _ => 0
    wc := if 0 < n3 then v3.wc else fun _ _ _ => 0
    T := if 0 < n3 then v3.T else fun _ _ _ => 0
    S := if 0 < n3 then v3.S else fun _ _ _ => 0
    h := if 0 < n3 then v3.h else fun _ _ => 0 }

/-- One input polygon of `modifyBCmarker`: its point-membership test (the
external `inpolygon`, applied to edge midpoints), the polygon's `marker`
field and its `edge_id` field. -/
structure BCPoly where
  inside : ℚ × ℚ → Bool
  marker : Int
  edgeId : Int

/-- One pass of the `modifyBCmarker` polygon loop over the state
`(mark, edge_id)`: among the currently open edges (`mark>0`) whose
midpoint lies inside the polygon, assign the polygon's marker (with 4
remapped to 2); when the marker is 4, also tag those edges with the
polygon's segment id.  Both updates read the pass-entry `mark`. -/
def applyPoly (g : Grid) (p : BCPoly) (st : (Nat → Int) × (Nat → Int)) :
    (Nat → Int) × (Nat → Int) :=
  let mark := st.1
  let eid := st.2
  let newmark : Int := if p.marker = 4 then 2 else p.marker
  ( fun i => if 0 < mark i ∧ p.inside (xeAll g i, yeAll g i) = true then newmark
             else mark i,
    fun i => if p.marker = 4 ∧ 0 < mark i ∧ p.inside (xeAll g i, yeAll g i) = true
             then p.edgeId else eid i )

/-- `modifyBCmarker`: reset every currently-nonzero marker to 1
(`grd.mark[grd.mark>0]=1`), zero the segment-tag array
(`grd.edge_id = grd.mark*0`), then apply the polygons in input order.
Returns the final `(mark, edge_id)` arrays. -/
def modifyBCmarker (g : Grid) (polys : List BCPoly) : (Nat → Int) × (Nat → Int) :=
  polys.foldl (fun st p => applyPoly g p st)
    (fun i => if 0 < g.mark i then 1 else g.mark i, fun _ => 0)

/-- Claim C1: two sequential regional-model integrations with interpolated
source fields `r1` and `r2` leave the same type-3 `T` and `S` arrays as a
single integration with the summed source field, whatever the flags; one
integration adds the source `T`,`S` element-wise to the existing arrays,
adds `h` only when `seth` is true, and adds `uc`,`vc` only when `setUV`
is true. -/
theorem roms2boundary_additive (b : Boundary) (r1 r2 : RomsInterp)
    (su1 sh1 su2 sh2 su sh : Bool) :
    ((roms2boundary (roms2boundary b r1 su1 sh1) r2 su2 sh2).T
        = (roms2boundary b (r1.add r2) su sh).T
      ∧ (roms2boundary (roms2boundary b r1 su1 sh1) r2 su2 sh2).S
        = (roms2boundary b (r1.add r2) su sh).S)
    ∧ (roms2boundary b r1 su1 sh1).T = (fun t k j => b.T t k j + r1.T t k j)
    ∧ (roms2boundary b r1 su1 sh1).S = (fun t k j => b.S t k j + r1.S t k j)
    ∧ (roms2boundary b r1 su1 sh1).h
        = (if sh1 then (fun t j => b.h t j + r1.h t j) else b.h)
    ∧ (roms2boundary b r1 su1 sh1).uc
        = (if su1 then (fun t k j => b.uc t k j + r1.uc t k j) else b.uc)
    ∧ (roms2boundary b r1 su1 sh1).vc
        = (if su1 then (fun t k j => b.vc t k j + r1.vc t k j) else b.vc) := by
  refine ⟨⟨?_, ?_⟩, rfl, rfl, rfl, rfl, rfl⟩ <;>
    · funext t k j
      simp only [roms2boundary, RomsInterp.add]
      ring

/-- Claim C2: a gridded-analysis integration overwrites the type-3 `T`,`S`
and type-2 `boundary_T`,`boundary_S` arrays with the freshly interpolated
values, adds the surface height to the type-3 `h` only when `seth`, adds
the interpolated velocity to the type-2 `boundary_u`,`boundary_v` only
when `setUV`, and never modifies the type-3 `uc`,`vc` arrays. -/
theorem oceanmodel2bdy_overwrite_policy (b : Boundary) (src : OceanInterp)
    (setUV seth : Bool) (hN3 : 0 < b.N3) (hN2 : 0 < b.N2) :
    (oceanmodel2bdy b src setUV seth).T = src.temp3
    ∧ (oceanmodel2bdy b src setUV seth).S = src.salt3
    ∧ (oceanmodel2bdy b src setUV seth).boundary_T = src.temp2
    ∧ (oceanmodel2bdy b src setUV seth).boundary_S = src.salt2
    ∧ (oceanmodel2bdy b src setUV seth).h
        = (if seth then (fun t j => b.h t j + src.ssh3 t j) else b.h)
    ∧ (oceanmodel2bdy b src setUV seth).boundary_u
        = (if setUV then (fun t k j => b.boundary_u t k j + src.u2 t k j)
           else b.boundary_u)
    ∧ (oceanmodel2bdy b src setUV seth).boundary_v
        = (if setUV then (fun t k j => b.boundary_v t k j + src.v2 t k j)
           else b.boundary_v)
    ∧ (oceanmodel2bdy b src setUV seth).uc = b.uc
    ∧ (oceanmodel2bdy b src setUV seth).vc = b.vc := by
  simp [oceanmodel2bdy, hN3, hN2]

/-- Claim C2 witness: the policy at a concrete one-cell, one-edge
boundary. -/
theorem oceanmodel2bdy_overwrite_policy_witness :
    (oceanmodel2bdy
        ⟨1, 1, 1, 1, 0, [0], fun _ => 0, [0], [0], [0], [0], [0], [0], [], [],
          fun _ _ => 0, fun _ _ _ => 0, fun _ _ _ => 0, fun _ _ _ => 0,
          fun _ _ _ => 0, fun _ _ _ => 0, fun _ _ => 0, fun _ _ _ => 0,
          fun _ _ _ => 0, fun _ _ _ => 0, fun _ _ _ => 0, fun _ _ _ => 0,
          fun _ _ => 0⟩
        ⟨fun _ _ _ => 1, fun _ _ _ => 2, fun _ _ => 3, fun _ _ _ => 4,
          fun _ _ _ => 5, fun _ _ _ => 6, fun _ _ _ => 7⟩
        true true).T = (fun _ _ _ => (1 : ℚ)) :=
  (oceanmodel2bdy_overwrite_policy _ _ true true (by decide) (by decide)).1

/-- Claim C3: with start `S`, end `E ≥ S` and step `D > 0` seconds, the
time axis has length `(E-S)/D + 1`, starts at `S`, advances by exactly
`D` between consecutive instants, and ends at the largest `S + k*D ≤ E`. -/
theorem getTime_axis_spec (S E D : Nat) (hSE : S ≤ E) (hD : 0 < D) :
    (getTime S E D).length = (E - S) / D + 1
    ∧ (getTime S E D).getD 0 0 = S
    ∧ (∀ i, i + 1 < (getTime S E D).length →
        (getTime S E D).getD (i + 1) 0 = (getTime S E D).getD i 0 + D)
    ∧ (getTime S E D).getD ((getTime S E D).length - 1) 0
        = S + ((E - S) / D) * D
    ∧ S + ((E - S) / D) * D ≤ E
    ∧ (∀ k, S + k * D ≤ E → S + k * D ≤ S + ((E - S) / D) * D) := by
  have hmap := getTime_eq_range_map hSE hD
  have hle : (E - S) / D * D ≤ E - S := Nat.div_mul_le_self (E - S) D
  have hget : ∀ i, i < (E - S) / D + 1 → (getTime S E D).getD i 0 = S + i * D := by
    intro i hi
    rw [hmap, List.getD_eq_getElem?_getD, List.getElem?_map,
      List.getElem?_range hi]
    rfl
  have hlen : (getTime S E D).length = (E - S) / D + 1 := by
    rw [hmap, List.length_map, List.length_range]
  refine ⟨hlen, ?_, ?_, ?_, ?_, ?_⟩
  · rw [hget 0 (Nat.succ_pos _)]
    simp
  · intro i hi
    rw [hlen] at hi
    rw [hget i (Nat.lt_of_succ_lt hi), hget (i + 1) hi]
    ring
  · rw [hlen]
    simpa using hget ((E - S) / D) (Nat.lt_succ_self _)
  · have h2 : S + (E - S) ≤ E := by omega
    exact le_trans (Nat.add_le_add_left hle S) h2
  · intro k hk
    have hkd : k * D ≤ E - S := by
      generalize hm : k * D = m at hk ⊢
      omega
    have hdiv : k ≤ (E - S) / D := (Nat.le_div_iff_mul_le hD).mpr hkd
    exact Nat.add_le_add_left (Nat.mul_le_mul_right D hdiv) S

/-- Claim C3 witness: the axis from 0 to 10 with step 3 has
`10/3 + 1 = 4` instants. -/
theorem getTime_axis_spec_witness : (getTime 0 10 3).length = (10 - 0) / 3 + 1 :=
  (getTime_axis_spec 0 10 3 (by decide) (by decide)).1

/-- Claim C10: with at least one type-2 edge, the tidal integration adds
the predicted `U`,`V` to `boundary_u`,`boundary_v` at every vertical
layer whatever the value of `setUV` (which gates only the type-3
`uc`,`vc` update), and never modifies `boundary_h`. -/
theorem otis2boundary_type2_velocity (b : Boundary)
    (h3 U3 V3 h2 U2 V2 : Nat → Nat → ℚ) (setUV : Bool) (hN2 : 0 < b.N2) :
    (∀ t k j, k < b.Nk →
      (otis2boundary b h3 U3 V3 h2 U2 V2 setUV).boundary_u t k j
          = b.boundary_u t k j + U2 t j
        ∧ (otis2boundary b h3 U3 V3 h2 U2 V2 setUV).boundary_v t k j
          = b.boundary_v t k j + V2 t j)
    ∧ (otis2boundary b h3 U3 V3 h2 U2 V2 setUV).boundary_h = b.boundary_h
    ∧ (setUV = false →
        (otis2boundary b h3 U3 V3 h2 U2 V2 setUV).uc = b.uc
        ∧ (otis2boundary b h3 U3 V3 h2 U2 V2 setUV).vc = b.vc) := by
  refine ⟨fun t k j hk => ?_, ?_, fun hUV => ?_⟩
  · constructor <;> by_cases hN3 : 0 < b.N3 <;>
      simp [otis2boundary, hN2, hN3, hk]
  · by_cases hN3 : 0 < b.N3 <;> simp [otis2boundary, hN2, hN3]
  · subst hUV
    constructor <;> by_cases hN3 : 0 < b.N3 <;>
      simp [otis2boundary, hN2, hN3]

/-- Claim C10 witness: `boundary_h` survives a concrete tidal
integration unchanged. -/
theorem otis2boundary_type2_velocity_witness :
    (otis2boundary
        ⟨1, 1, 1, 0, 0, [0], fun _ => 0, [], [], [], [0], [0], [0], [], [],
          fun _ _ => 9, fun _ _ _ => 0, fun _ _ _ => 0, fun _ _ _ => 0,
          fun _ _ _ => 0, fun _ _ _ => 0, fun _ _ => 0, fun _ _ _ => 0,
          fun _ _ _ => 0, fun _ _ _ => 0, fun _ _ _ => 0, fun _ _ _ => 0,
          fun _ _ => 0⟩
        (fun _ _ => 1) (fun _ _ => 2) (fun _ _ => 3)
        (fun _ _ => 4) (fun _ _ => 5) (fun _ _ => 6) true).boundary_h
      = (fun _ _ => (9 : ℚ)) :=
  (otis2boundary_type2_velocity _ _ _ _ _ _ _ true (by decide)).2.1

theorem length_pos_ite_map {α β : Type} (l : List α) (f : α → β) :
    (if 0 < l.length then l.map f else []) = l.map f := by
  split
  · rfl
  · next hl =>
    have h0 : l = [] := List.length_eq_zero.mp (by omega)
    rw [h0]
    rfl

theorem loadBoundary_edgep (g : Grid) :
    (loadBoundary g).edgep = mark2Edges g := by
  simp only [loadBoundary]
  split <;> rfl

theorem loadBoundary_N2 (g : Grid) :
    (loadBoundary g).N2 = (mark2Edges g).length := by
  simp only [loadBoundary]
  split <;> rfl

theorem loadBoundary_cellp (g : Grid) :
    (loadBoundary g).cellp = uniqueSorted (collectCells g (mark3Edges g)) := by
  have key : ∀ l : List Int,
      (if 0 < l.length then uniqueSorted l else []) = uniqueSorted l := by
    intro l
    split
    · rfl
    · next hl =>
      have h0 : l = [] := List.length_eq_zero.mp (by omega)
      rw [h0]
      rfl
  simp only [loadBoundary]
  split <;> exact key _

theorem loadBoundary_N3 (g : Grid) :
    (loadBoundary g).N3 = (loadBoundary g).cellp.length := by
  simp only [loadBoundary]
  split <;> rfl

theorem loadBoundary_xe (g : Grid) :
    (loadBoundary g).xe = (mark2Edges g).map (xeAll g) := by
  simp only [loadBoundary]
  split
  · rfl
  · next hl =>
    have h0 : mark2Edges g = [] := List.length_eq_zero.mp (by omega)
    rw [h0]
    rfl

theorem loadBoundary_ye (g : Grid) :
    (loadBoundary g).ye = (mark2Edges g).map (yeAll g) := by
  simp only [loadBoundary]
  split
  · rfl
  · next hl =>
    have h0 : mark2Edges g = [] := List.length_eq_zero.mp (by omega)
    rw [h0]
    rfl

theorem loadBoundary_seg_pos (g : Grid) (h : 0 < (mark2Edges g).length) :
    (loadBoundary g).segp
        = uniqueSorted (((List.range g.Ne).filter (fun i => 0 < g.edge_id i)).map g.edge_id)
    ∧ (loadBoundary g).Nseg = (loadBoundary g).segp.length
    ∧ (loadBoundary g).segedgep
        = (mark2Edges g).map (fun i => if 0 < g.edge_id i then g.edge_id i else 0) := by
  simp only [loadBoundary]
  rw [if_pos h]
  exact ⟨rfl, rfl, rfl⟩

theorem loadBoundary_seg_zero (g : Grid) (h : (mark2Edges g).length = 0) :
    (loadBoundary g).Nseg = 0 := by
  simp only [loadBoundary]
  rw [if_neg (by omega)]

/-- Claim C4: with exactly `M` marker==2 edges, `edgep` has length `M`,
lists exactly those edge indices in increasing (mesh) order, and the
coordinate arrays `xe`,`ye` are the edge midpoints (the mean of the two
endpoint coordinates) of those edges in the same order. -/
theorem loadBoundary_type2_edges (g : Grid) (M : Nat)
    (hM : ((Finset.range g.Ne).filter (fun i => g.mark i = 2)).card = M) :
    (loadBoundary g).edgep.length = M
    ∧ (∀ i, i ∈ (loadBoundary g).edgep ↔ i < g.Ne ∧ g.mark i = 2)
    ∧ List.Sorted (fun a b => a < b) (loadBoundary g).edgep
    ∧ (loadBoundary g).xe = (loadBoundary g).edgep.map
        (fun i => (g.xp (g.edges i).1 + g.xp (g.edges i).2) / 2)
    ∧ (loadBoundary g).ye = (loadBoundary g).edgep.map
        (fun i => (g.yp (g.edges i).1 + g.yp (g.edges i).2) / 2) := by
  rw [loadBoundary_edgep]
  refine ⟨?_, ?_, ?_, ?_, ?_⟩
  · exact hM
  · intro i
    simp [mark2Edges, List.mem_filter, List.mem_range]
  · exact (List.pairwise_lt_range g.Ne).sublist (List.filter_sublist _)
  · rw [loadBoundary_xe]
    rfl
  · rw [loadBoundary_ye]
    rfl

/-- Claim C4 witness: a two-edge mesh with one marker==2 edge. -/
theorem loadBoundary_type2_edges_witness :
    (loadBoundary
        ⟨2, fun i => if i = 0 then 1 else 2, fun _ => (0, -1),
          fun _ => 0, fun i => (i, i + 1), fun v => v, fun v => v,
          fun _ => 0, fun _ => 0⟩).edgep.length = 1 :=
  (loadBoundary_type2_edges _ 1 (by decide)).1

/-- The valid adjacent cell of a boundary edge: the adjacency entry that
is not `-1` (well-defined when exactly one entry is `-1`). -/
def pickCell (g : Grid) (i : Nat) : Int :=
  if (g.grad i).1 = -1 then (g.grad i).2 else (g.grad i).1

theorem edgeCell_eq_pick {g : Grid} {i : Nat}
    (h : ((g.grad i).1 = -1 ∧ (g.grad i).2 ≠ -1)
      ∨ ((g.grad i).1 ≠ -1 ∧ (g.grad i).2 = -1)) :
    edgeCell g i = [pickCell g i] := by
  rcases h with ⟨h1, h2⟩ | ⟨h1, h2⟩
  · simp [edgeCell, pickCell, h1]
  · simp [edgeCell, pickCell, h1, h2]

theorem collectCells_eq_map {g : Grid} :
    ∀ {l : List Nat}, (∀ i ∈ l, edgeCell g i = [pickCell g i]) →
      collectCells g l = l.map (pickCell g) := by
  intro l
  induction l with
  | nil => intro _; rfl
  | cons i rest ih =>
    intro hl
    rw [collectCells, hl i (List.mem_cons_self i rest),
      ih (fun j hj => hl j (List.mem_cons_of_mem i hj)), List.map_cons]
    rfl

theorem mem_mark3Edges {g : Grid} {i : Nat} :
    i ∈ mark3Edges g ↔ i < g.Ne ∧ g.mark i = 3 := by
  simp [mark3Edges, List.mem_filter, List.mem_range]

/-- Claim C5: when every marker==3 edge has exactly one valid adjacent
cell, `cellp` is the sorted duplicate-free list of those valid cells,
`N3` is its length, `N3 ≤ K` (the number of marker==3 edges), and
`N3 = K` exactly when no two marker==3 edges share a cell. -/
theorem loadBoundary_type3_cells (g : Grid) (K : Nat)
    (hK : ((Finset.range g.Ne).filter (fun i => g.mark i = 3)).card = K)
    (hv : ∀ i, i < g.Ne → g.mark i = 3 →
      ((g.grad i).1 = -1 ∧ (g.grad i).2 ≠ -1)
        ∨ ((g.grad i).1 ≠ -1 ∧ (g.grad i).2 = -1)) :
    (loadBoundary g).N3 ≤ K
    ∧ ((loadBoundary g).N3 = K ↔
        (mark3Edges g).Pairwise (fun i j => pickCell g i ≠ pickCell g j))
    ∧ List.Sorted (fun a b => a ≤ b) (loadBoundary g).cellp
    ∧ (loadBoundary g).cellp.Nodup
    ∧ (∀ x, x ∈ (loadBoundary g).cellp ↔
        ∃ i, i < g.Ne ∧ g.mark i = 3 ∧ x = pickCell g i)
    ∧ (loadBoundary g).N3 = (loadBoundary g).cellp.length := by
  have hraw : collectCells g (mark3Edges g) = (mark3Edges g).map (pickCell g) := by
    refine collectCells_eq_map (fun i hi => ?_)
    obtain ⟨hilt, him⟩ := mem_mark3Edges.mp hi
    exact edgeCell_eq_pick (hv i hilt him)
  have hlenK : (mark3Edges g).length = K := hK
  have hN3 : (loadBoundary g).N3
      = (collectCells g (mark3Edges g)).dedup.length := by
    rw [loadBoundary_N3, loadBoundary_cellp, length_uniqueSorted]
  have hrawlen : (collectCells g (mark3Edges g)).length = K := by
    rw [hraw, List.length_map, hlenK]
  refine ⟨?_, ?_, ?_, ?_, ?_, ?_⟩
  · rw [hN3, ← hrawlen]
    exact (List.dedup_sublist _).length_le
  · rw [hN3, ← hrawlen]
    rw [dedup_length_eq_iff, hraw, List.Nodup, List.pairwise_map]
  · rw [loadBoundary_cellp]
    exact sorted_uniqueSorted _
  · rw [loadBoundary_cellp]
    exact nodup_uniqueSorted _
  · intro x
    rw [loadBoundary_cellp, mem_uniqueSorted, hraw, List.mem_map]
    constructor
    · rintro ⟨i, hi, hx⟩
      obtain ⟨hilt, him⟩ := mem_mark3Edges.mp hi
      exact ⟨i, hilt, him, hx.symm⟩
    · rintro ⟨i, hilt, him, hx⟩
      exact ⟨i, mem_mark3Edges.mpr ⟨hilt, him⟩, hx.symm⟩
  · exact loadBoundary_N3 g

/-- Claim C5 witness: a mesh with two marker==3 edges sharing one side
each of two distinct cells. -/
theorem loadBoundary_type3_cells_witness :
    (loadBoundary
        ⟨2, fun _ => 3, fun i => if i = 0 then (-1, 4) else (2, -1),
          fun _ => 0, fun i => (i, i + 1), fun v => v, fun v => v,
          fun _ => 0, fun _ => 0⟩).N3 ≤ 2 :=
  (loadBoundary_type3_cells _ 2 (by decide) (by decide)).1

/-- A two-edge mesh in which the only positive segment tag sits on a
marker==1 (closed) edge, while the single marker==2 edge carries no tag. -/
def segGrid : Grid where
  Ne := 2
  mark := fun i => if i = 0 then 1 else 2
  grad := fun _ => (0, -1)
  edge_id := fun i => if i = 0 then 5 else 0
  edges := fun _ => (0, 1)
  xp := fun _ => 0
  yp := fun _ => 0
  xv := fun _ => 0
  yv := fun _ => 0

/-- Claim C7 counterexample: on `segGrid` no marker==2 edge carries a
positive segment id, yet the resolver reports `Nseg = 1` with
`segp = [5]` — the tag of the marker==1 edge contributes, because the
source scans `edge_id > 0` over all edges, not only marker==2 ones. -/
theorem segp_includes_non_marker2_tags :
    (∀ i, i < segGrid.Ne → ¬(segGrid.mark i = 2 ∧ 0 < segGrid.edge_id i))
    ∧ (loadBoundary segGrid).Nseg = 1
    ∧ (loadBoundary segGrid).segp = [5] := by decide

/-- Claim C7 (amended): when at least one edge has marker==2, `segp` is
the sorted duplicate-free list of the positive segment ids found on ALL
edges (regardless of marker), `Nseg` is its length, and `segedgep` maps
each type-2 edge to its positive segment id (0 when none); when no edge
has marker==2, `Nseg = 0`. -/
theorem loadBoundary_segments_amended (g : Grid) :
    ((∃ i, i < g.Ne ∧ g.mark i = 2) →
      List.Sorted (fun a b => a ≤ b) (loadBoundary g).segp
      ∧ (loadBoundary g).segp.Nodup
      ∧ (∀ x, x ∈ (loadBoundary g).segp ↔
          ∃ i, i < g.Ne ∧ 0 < g.edge_id i ∧ x = g.edge_id i)
      ∧ (loadBoundary g).Nseg = (loadBoundary g).segp.length
      ∧ (loadBoundary g).segedgep = (loadBoundary g).edgep.map
          (fun i => if 0 < g.edge_id i then g.edge_id i else 0))
    ∧ ((∀ i, i < g.Ne → g.mark i ≠ 2) → (loadBoundary g).Nseg = 0) := by
  constructor
  · rintro ⟨i, hilt, him⟩
    have hpos : 0 < (mark2Edges g).length :=
      List.length_pos.mpr (fun hemp => by
        have : i ∈ mark2Edges g := by
          simp [mark2Edges, List.mem_filter, List.mem_range, hilt, him]
        rw [hemp] at this
        exact absurd this (List.not_mem_nil i))
    obtain ⟨hsegp, hNseg, hsegedgep⟩ := loadBoundary_seg_pos g hpos
    refine ⟨?_, ?_, ?_, hNseg, ?_⟩
    · rw [hsegp]
      exact sorted_uniqueSorted _
    · rw [hsegp]
      exact nodup_uniqueSorted _
    · intro x
      rw [hsegp, mem_uniqueSorted, List.mem_map]
      constructor
      · rintro ⟨j, hj, hx⟩
        rw [List.mem_filter, List.mem_range] at hj
        exact ⟨j, hj.1, by simpa using hj.2, hx.symm⟩
      · rintro ⟨j, hjlt, hjpos, hx⟩
        refine ⟨j, ?_, hx.symm⟩
        rw [List.mem_filter, List.mem_range]
        exact ⟨hjlt, by simpa using hjpos⟩
    · rw [hsegedgep, loadBoundary_edgep]
  · intro hnone
    refine loadBoundary_seg_zero g ?_
    rw [List.length_eq_zero, mark2Edges, List.filter_eq_nil_iff]
    intro i hi
    rw [List.mem_range] at hi
    simpa using hnone i hi

/-- Claim C7 (amended) witness: on `segGrid`, `Nseg` equals the length
of `segp`. -/
theorem loadBoundary_segments_amended_witness :
    (loadBoundary segGrid).Nseg = (loadBoundary segGrid).segp.length :=
  ((loadBoundary_segments_amended segGrid).1 ⟨1, by decide, by decide⟩).2.2.2.1

/-- Claim C8: with zero input polygons, every previously-nonzero marker
becomes 1 (zero markers stay 0) and every segment tag is 0; with a
single polygon containing every boundary edge midpoint, carrying marker
value 4 and segment id 7, every previously marker>0 edge ends with
marker 2 and segment tag 7. -/
theorem modifyBCmarker_spec (g : Grid) (p : BCPoly)
    (hin : ∀ i, i < g.Ne → 0 < g.mark i →
      p.inside (xeAll g i, yeAll g i) = true)
    (hm : p.marker = 4) (hid : p.edgeId = 7) :
    (∀ i, (0 < g.mark i → (modifyBCmarker g []).1 i = 1)
      ∧ (¬0 < g.mark i → (modifyBCmarker g []).1 i = g.mark i)
      ∧ (modifyBCmarker g []).2 i = 0)
    ∧ (∀ i, i < g.Ne → 0 < g.mark i →
        (modifyBCmarker g [p]).1 i = 2 ∧ (modifyBCmarker g [p]).2 i = 7) := by
  constructor
  · intro i
    refine ⟨fun hpos => ?_, fun hz => ?_, rfl⟩
    · simp [modifyBCmarker, hpos]
    · simp [modifyBCmarker, hz]
  · intro i hilt hpos
    have hins := hin i hilt hpos
    constructor <;> simp [modifyBCmarker, applyPoly, hpos, hins, hm, hid]

/-- Claim C8 witness: a one-edge mesh with an all-containing polygon
tagged marker 4 and segment id 7. -/
theorem modifyBCmarker_spec_witness :
    (modifyBCmarker
        ⟨1, fun _ => 1, fun _ => (0, -1), fun _ => 0, fun _ => (0, 0),
          fun _ => 0, fun _ => 0, fun _ => 0, fun _ => 0⟩
        [⟨fun _ => true, 4, 7⟩]).1 0 = 2
    ∧ (modifyBCmarker
        ⟨1, fun _ => 1, fun _ => (0, -1), fun _ => 0, fun _ => (0, 0),
          fun _ => 0, fun _ => 0, fun _ => 0, fun _ => 0⟩
        [⟨fun _ => true, 4, 7⟩]).2 0 = 7 :=
  (modifyBCmarker_spec _ _ (fun _ _ _ => rfl) rfl rfl).2 0 (by decide) (by decide)

/-- A one-edge mesh adjacency array with the `-1` sentinel in the first
column, before any depth assignment. -/
def viewGrad : Nat → Int × Int := fun _ => (-1, 3)

/-- Claim C9 exhibit: `setDepth` on a boundary with one type-2 edge
rewrites the mesh adjacency entry `(-1, 3)` to `(3, 3)` — the in-place
numpy view assignments mutate `grd.grad`, so the mesh is not left
unchanged as the specification requires. -/
theorem setDepth_mutates_grad :
    (setDepth viewGrad 0 1 [] [0] (fun _ => 0)).grad 0 = (3, 3)
    ∧ viewGrad 0 = (-1, 3) := by decide

/-- Claim C6: writing the field store and reconstituting a `Boundary`
from the file reproduces the dimension sizes `Nt`, `Nk`, `N2`, `N3`,
`Nseg` and, for every boundary class with nonzero cardinality, field
arrays equal to the pre-write values.  `ht` records that the time list
backing the unlimited dimension has `Nt` entries (true of every
constructed boundary); `hsg` records that segment variables only occur
together with the type-2 dimension they are declared on (true of every
resolved topology, and required for the write to succeed at all). -/
theorem write_read_roundtrip (b : Boundary) (ht : b.time.length = b.Nt)
    (hsg : 0 < b.Nseg → 0 < b.N2) :
    (loadBoundaryNC (write2NC b)).Nt = b.Nt
    ∧ (loadBoundaryNC (write2NC b)).Nk = b.Nk
    ∧ (loadBoundaryNC (write2NC b)).N2 = b.N2
    ∧ (loadBoundaryNC (write2NC b)).N3 = b.N3
    ∧ (loadBoundaryNC (write2NC b)).Nseg = b.Nseg
    ∧ (0 < b.N3 →
        (loadBoundaryNC (write2NC b)).cellp = b.cellp
        ∧ (loadBoundaryNC (write2NC b)).xv = b.xv
        ∧ (loadBoundaryNC (write2NC b)).yv = b.yv
        ∧ (loadBoundaryNC (write2NC b)).uc = b.uc
        ∧ (loadBoundaryNC (write2NC b)).vc = b.vc
        ∧ (loadBoundaryNC (write2NC b)).wc = b.wc
        ∧ (loadBoundaryNC (write2NC b)).T = b.T
        ∧ (loadBoundaryNC (write2NC b)).S = b.S
        ∧ (loadBoundaryNC (write2NC b)).h = b.h)
    ∧ (0 < b.N2 →
        (loadBoundaryNC (write2NC b)).edgep = b.edgep
        ∧ (loadBoundaryNC (write2NC b)).xe = b.xe
        ∧ (loadBoundaryNC (write2NC b)).ye = b.ye
        ∧ (loadBoundaryNC (write2NC b)).boundary_h = b.boundary_h
        ∧ (loadBoundaryNC (write2NC b)).boundary_u = b.boundary_u
        ∧ (loadBoundaryNC (write2NC b)).boundary_v = b.boundary_v
        ∧ (loadBoundaryNC (write2NC b)).boundary_w = b.boundary_w
        ∧ (loadBoundaryNC (write2NC b)).boundary_T = b.boundary_T
        ∧ (loadBoundaryNC (write2NC b)).boundary_S = b.boundary_S)
    ∧ (0 < b.Nseg →
        (loadBoundaryNC (write2NC b)).segp = b.segp
        ∧ (loadBoundaryNC (write2NC b)).segedgep = b.segedgep
        ∧ (loadBoundaryNC (write2NC b)).boundary_Q = b.boundary_Q) := by
  refine ⟨?_, rfl, ?_, ?_, ?_, fun h3 => ?_, fun h2 => ?_, fun hs => ?_⟩
  · simp [loadBoundaryNC, write2NC, ht]
  · by_cases h2 : 0 < b.N2 <;> simp [loadBoundaryNC, write2NC, h2] <;> omega
  · by_cases h3 : 0 < b.N3 <;> simp [loadBoundaryNC, write2NC, h3] <;> omega
  · by_cases hs : 0 < b.Nseg <;> simp [loadBoundaryNC, write2NC, hs] <;> omega
  · simp [loadBoundaryNC, write2NC, h3]
  · simp [loadBoundaryNC, write2NC, h2]
  · simp [loadBoundaryNC, write2NC, hs]

/-- Claim C6 witness: the dimension sizes of a concrete one-point
boundary survive the round trip. -/
theorem write_read_roundtrip_witness :
    (loadBoundaryNC (write2NC
        ⟨1, 1, 1, 1, 1, [0], fun _ => 0, [2], [0], [0], [4], [0], [0], [5], [5],
          fun _ _ => 1, fun _ _ _ => 2, fun _ _ _ => 3, fun _ _ _ => 4,
          fun _ _ _ => 5, fun _ _ _ => 6, fun _ _ => 7, fun _ _ _ => 8,
          fun _ _ _ => 9, fun _ _ _ => 10, fun _ _ _ => 11, fun _ _ _ => 12,
          fun _ _ => 13⟩)).Nt = 1 :=
  (write_read_roundtrip _ (by decide) (fun _ => by decide)).1

end Suntans
